import Mathlib

/-!
Verification of the security-materials layer of a Bluetooth-mesh node
(`src/crypto/materials.rs`) and of the LE controller opcode catalog
(`src/ble/hci/le.rs`), as a shallow embedding in Lean 4.

Machine integers are modelled as `Nat` (the values involved are small
identifiers and 12-bit indexes; no arithmetic that could overflow occurs in
the embedded code).  The `BTreeMap` repositories are modelled as association
lists with strictly ascending keys, which is exactly the observable behaviour
(keyed get/insert/remove plus ascending-order iteration) the code relies on.
-/

/-- 7-bit network identifier carried in a Network PDU's cleartext header. -/
abbrev NID := Nat

/-- 6-bit application identifier carried in an Access-layer payload. -/
abbrev AID := Nat

/-- 12-bit provisioner-assigned network-key slot index. -/
abbrev NetKeyIndex := Nat

/-- 12-bit provisioner-assigned application-key slot index. -/
abbrev AppKeyIndex := Nat

/-- Root network key (raw 16-byte key material, modelled as its value). -/
abbrev NetKey := Nat

/-- Root application key (raw 16-byte key material, modelled as its value). -/
abbrev AppKey := Nat

/-- Derived encryption key. -/
abbrev EncryptionKey := Nat

/-- Derived privacy key. -/
abbrev PrivacyKey := Nat

/-- Derived network id. -/
abbrev NetworkID := Nat

/-- Derived identity key. -/
abbrev IdentityKey := Nat

/-- Derived beacon key. -/
abbrev BeaconKey := Nat

/-- `NetworkKeys` from `materials.rs`: nid, encryption key and privacy key
derived (by `k2`) from one root network key. -/
structure NetworkKeys where
  nid : NID
  encryption : EncryptionKey
  privacy : PrivacyKey
deriving DecidableEq, Repr

/-- `NetworkSecurityMaterials` from `materials.rs`: the full derived bundle
for one network key value. -/
structure NetworkSecurityMaterials where
  net_key : NetKey
  network_keys : NetworkKeys
  network_id : NetworkID
  identity_key : IdentityKey
  beacon_key : BeaconKey
deriving DecidableEq, Repr

/-- `KeyPair<K>` from `materials.rs` (field order as in the source: `new`
then `old`). -/
structure KeyPair (K : Type) where
  new : K
  old : K
deriving DecidableEq, Repr

/-- `KeyPhase<K>` from `materials.rs`: the Key Refresh state for one slot. -/
inductive KeyPhase (K : Type) where
  | Normal (k : K)
  | Phase1 (p : KeyPair K)
  | Phase2 (p : KeyPair K)
deriving DecidableEq, Repr

/-- `KeyPhase::tx_key` from `materials.rs`. -/
def KeyPhase.tx_key {K : Type} : KeyPhase K → K
  | KeyPhase.Normal k => k
  | KeyPhase.Phase1 p => p.old
  | KeyPhase.Phase2 p => p.new

/-- `KeyPhase::rx_keys` from `materials.rs`: primary plus optional secondary
decrypt candidate. -/
def KeyPhase.rx_keys {K : Type} : KeyPhase K → K × Option K
  | KeyPhase.Normal k => (k, none)
  | KeyPhase.Phase1 p => (p.old, some p.new)
  | KeyPhase.Phase2 p => (p.new, some p.old)

/-- `KeyPhase::key_pair` from `materials.rs`. -/
def KeyPhase.key_pair {K : Type} : KeyPhase K → Option (KeyPair K)
  | KeyPhase.Normal _ => none
  | KeyPhase.Phase1 p => some p
  | KeyPhase.Phase2 p => some p

/-- Modelled from the spec: the external key-derivation primitives (the
`k2` function and the `From<&NetKey>` / `AppKey::aid` derivations live in
`src/crypto`, outside the given sources).  Per the spec they are
deterministic, side-effect-free pure functions from raw key bytes to derived
identifiers and sub-keys, so they are modelled as an arbitrary bundle of
functions; the fixed `b"\x00"` label of the `k2` call is absorbed into the
`k2` field. -/
structure Derivations where
  k2 : NetKey → NID × EncryptionKey × PrivacyKey
  networkID : NetKey → NetworkID
  identityKey : NetKey → IdentityKey
  beaconKey : NetKey → BeaconKey
  aid : AppKey → AID

/-- `From<&NetKey> for NetworkKeys` from `materials.rs`. -/
def NetworkKeys.fromNetKey (d : Derivations) (k : NetKey) : NetworkKeys :=
  NetworkKeys.mk (d.k2 k).1 (d.k2 k).2.1 (d.k2 k).2.2

/-- `From<&NetKey> for NetworkSecurityMaterials` from `materials.rs`. -/
def NetworkSecurityMaterials.fromNetKey (d : Derivations) (k : NetKey) :
    NetworkSecurityMaterials :=
  { net_key := k
    network_keys := NetworkKeys.fromNetKey d k
    network_id := d.networkID k
    identity_key := d.identityKey k
    beacon_key := d.beaconKey k }

/-- Keyed lookup of a `BTreeMap` modelled as an association list. -/
def btGet {V : Type} (k : Nat) : List (Nat × V) → Option V
  | [] => none
  | (k1, v1) :: rest => if k = k1 then some v1 else btGet k rest

/-- `BTreeMap::insert` modelled on an association list with ascending keys:
returns the updated list and the displaced previous value, if any. -/
def btInsert {V : Type} (k : Nat) (v : V) :
    List (Nat × V) → List (Nat × V) × Option V
  | [] => ([(k, v)], none)
  | (k1, v1) :: rest =>
    if k < k1 then ((k, v) :: (k1, v1) :: rest, none)
    else if k = k1 then ((k, v) :: rest, some v1)
    else ((k1, v1) :: (btInsert k v rest).1, (btInsert k v rest).2)

/-- `BTreeMap::remove` modelled on an association list with ascending keys:
returns the updated list and the removed value, if any. -/
def btRemove {V : Type} (k : Nat) :
    List (Nat × V) → List (Nat × V) × Option V
  | [] => ([], none)
  | (k1, v1) :: rest =>
    if k = k1 then (rest, some v1)
    else if k < k1 then ((k1, v1) :: rest, none)
    else ((k1, v1) :: (btRemove k rest).1, (btRemove k rest).2)

/-- Representation invariant of the `BTreeMap` model: keys strictly
ascending (this is also the map's iteration order). -/
def keysSorted {V : Type} (m : List (Nat × V)) : Prop :=
  List.Pairwise (fun a b => a.1 < b.1) m

instance {V : Type} (m : List (Nat × V)) : Decidable (keysSorted m) := by
  unfold keysSorted
  infer_instance

/-- `NetKeyMap` from `materials.rs`: ordered repository of phase-wrapped
network security materials. -/
abbrev NetKeyMap := List (NetKeyIndex × KeyPhase NetworkSecurityMaterials)

/-- The output stream of `NIDFilterMap` (`materials.rs`, `Iterator::next`):
the iterator walks the slots in ascending index order, holding one buffered
pending item (`temp`); its flattened output is exactly this list.  The match
arms are in source order: both candidates match (yield primary, buffer
secondary); sole candidate matches; secondary-only matches; otherwise the
slot is skipped. -/
def nidFilterMap (nid : NID) :
    List (NetKeyIndex × KeyPhase NetworkSecurityMaterials) →
    List (NetKeyIndex × NetworkSecurityMaterials)
  | [] => []
  | (index, phase) :: rest =>
    match phase.rx_keys with
    | (first, some second) =>
      if first.network_keys.nid = nid ∧ second.network_keys.nid = nid then
        (index, first) :: (index, second) :: nidFilterMap nid rest
      else if second.network_keys.nid = nid then
        (index, second) :: nidFilterMap nid rest
      else
        nidFilterMap nid rest
    | (materials, none) =>
      if materials.network_keys.nid = nid then
        (index, materials) :: nidFilterMap nid rest
      else
        nidFilterMap nid rest

/-- `NetKeyMap::matching_nid` from `materials.rs`. -/
def NetKeyMap.matching_nid (m : NetKeyMap) (nid_to_match : NID) :
    List (NetKeyIndex × NetworkSecurityMaterials) :=
  nidFilterMap nid_to_match m

/-- `NetKeyMap::get_keys` from `materials.rs`. -/
def NetKeyMap.get_keys (m : NetKeyMap) (index : NetKeyIndex) :
    Option (KeyPhase NetworkSecurityMaterials) :=
  btGet index m

/-- `NetKeyMap::remove_keys` from `materials.rs`. -/
def NetKeyMap.remove_keys (m : NetKeyMap) (index : NetKeyIndex) :
    NetKeyMap × Option (KeyPhase NetworkSecurityMaterials) :=
  btRemove index m

/-- `NetKeyMap::insert` from `materials.rs`: derive, wrap `Normal`, store. -/
def NetKeyMap.insert (d : Derivations) (m : NetKeyMap) (index : NetKeyIndex)
    (new_key : NetKey) :
    NetKeyMap × Option (KeyPhase NetworkSecurityMaterials) :=
  btInsert index (KeyPhase.Normal (NetworkSecurityMaterials.fromNetKey d new_key)) m

/-- `ApplicationSecurityMaterials` from `materials.rs`. -/
structure ApplicationSecurityMaterials where
  app_key : AppKey
  aid : AID
  net_key_index : NetKeyIndex
deriving DecidableEq, Repr

/-- `ApplicationSecurityMaterials::new` from `materials.rs`: the stored aid
is derived from the stored key. -/
def ApplicationSecurityMaterials.new (d : Derivations) (app_key : AppKey)
    (net_key_index : NetKeyIndex) : ApplicationSecurityMaterials :=
  { app_key := app_key, aid := d.aid app_key, net_key_index := net_key_index }

/-- `AppKeyMap` from `materials.rs`. -/
abbrev AppKeyMap := List (AppKeyIndex × ApplicationSecurityMaterials)

/-- `AppKeyMap::get_key` from `materials.rs`. -/
def AppKeyMap.get_key (m : AppKeyMap) (index : AppKeyIndex) :
    Option ApplicationSecurityMaterials :=
  btGet index m

/-- `AppKeyMap::remove_key` from `materials.rs`. -/
def AppKeyMap.remove_key (m : AppKeyMap) (index : AppKeyIndex) :
    AppKeyMap × Option ApplicationSecurityMaterials :=
  btRemove index m

/-- `AppKeyMap::insert` from `materials.rs`. -/
def AppKeyMap.insert (d : Derivations) (m : AppKeyMap)
    (net_key_index : NetKeyIndex) (app_key_index : AppKeyIndex)
    (new_key : AppKey) : AppKeyMap × Option ApplicationSecurityMaterials :=
  btInsert app_key_index (ApplicationSecurityMaterials.new d new_key net_key_index) m

/-- `AppKeyMap::matching_aid` from `materials.rs`: filter_map over the
ascending iteration, keeping slots whose stored aid equals the query. -/
def AppKeyMap.matching_aid (m : AppKeyMap) (aid_to_match : AID) :
    List (AppKeyIndex × ApplicationSecurityMaterials) :=
  m.filterMap (fun p => if p.2.aid = aid_to_match then some p else none)

/-- One mutation of an `AppKeyMap` (for invariant claims about operation
sequences). -/
inductive AppOp where
  | ins (net_key_index : NetKeyIndex) (app_key_index : AppKeyIndex) (key : AppKey)
  | rem (app_key_index : AppKeyIndex)
deriving DecidableEq, Repr

/-- Apply one `AppOp` to an `AppKeyMap`. -/
def AppKeyMap.applyOp (d : Derivations) (m : AppKeyMap) : AppOp → AppKeyMap
  | AppOp.ins n i k => (AppKeyMap.insert d m n i k).1
  | AppOp.rem i => (AppKeyMap.remove_key m i).1

/-- Run a sequence of `AppOp`s from the empty map. -/
def AppKeyMap.runOps (d : Derivations) (ops : List AppOp) : AppKeyMap :=
  ops.foldl (AppKeyMap.applyOp d) []

/-- `HCIConversionError` (unit error struct) from `src/ble/hci`. -/
structure HCIConversionError where
deriving DecidableEq, Repr

/-- `LEControllerOpcode` from `le.rs`: the catalog of standardized LE
controller opcodes. -/
inductive LEControllerOpcode where
  | SetEventMask
  | ReadBufferSize
  | ReadLocalSupportedFeatures
  | SetRandomAddress
  | SetAdvertisingParameters
  | ReadAdvertisingChannelTxPower
  | SetAdvertisingData
  | SetScanResponseData
  | SetAdvertisingEnable
  | SetScanParameters
  | SetScanEnable
  | CreateConnection
  | CreateConnectionCancel
  | ReadWhitelistSize
  | ClearWhitelist
  | AddDeviceToWhitelist
  | RemoveDeviceFromWhitelist
  | ConnectionUpdate
  | SetHostChannelClassification
  | ReadChannelMap
  | ReadRemoteUsedFeatures
  | Encrypt
  | Rand
  | StartEncryption
  | LongTermKeyRequestReply
  | LongTermKeyRequestNegativeReply
  | ReadSupportedState
  | ReceiverTest
  | TransmitterTest
  | TestEnd
deriving DecidableEq, Repr

/-- The `repr(u16)` discriminant of each `LEControllerOpcode` variant, as
assigned in `le.rs`. -/
def LEControllerOpcode.code : LEControllerOpcode → Nat
  | SetEventMask => 0x0001
  | ReadBufferSize => 0x0002
  | ReadLocalSupportedFeatures => 0x0003
  | SetRandomAddress => 0x0005
  | SetAdvertisingParameters => 0x0006
  | ReadAdvertisingChannelTxPower => 0x0007
  | SetAdvertisingData => 0x0008
  | SetScanResponseData => 0x0009
  | SetAdvertisingEnable => 0x000A
  | SetScanParameters => 0x000B
  | SetScanEnable => 0x000C
  | CreateConnection => 0x000D
  | CreateConnectionCancel => 0x000E
  | ReadWhitelistSize => 0x000F
  | ClearWhitelist => 0x0010
  | AddDeviceToWhitelist => 0x0011
  | RemoveDeviceFromWhitelist => 0x0012
  | ConnectionUpdate => 0x0013
  | SetHostChannelClassification => 0x0014
  | ReadChannelMap => 0x0015
  | ReadRemoteUsedFeatures => 0x0016
  | Encrypt => 0x0017
  | Rand => 0x0018
  | StartEncryption => 0x0019
  | LongTermKeyRequestReply => 0x001A
  | LongTermKeyRequestNegativeReply => 0x001B
  | ReadSupportedState => 0x001C
  | ReceiverTest => 0x001D
  | TransmitterTest => 0x001E
  | TestEnd => 0x001F

/-- Modelled from the spec: `OCF::new` lives in `src/ble/hci` outside the
given sources; per the spec an OCF is a 10-bit sub-code field, so the
constructor confines its argument to 10 bits. -/
def OCF.new (n : Nat) : Nat := n % 1024

/-- `From<LEControllerOpcode> for OCF` from `le.rs`: `OCF::new(opcode as u16)`. -/
def LEControllerOpcode.toOcf (opcode : LEControllerOpcode) : Nat :=
  OCF.new opcode.code

/-- `TryFrom<OCF> for LEControllerOpcode` from `le.rs`: match on the raw
sub-code value, in source order, falling through to the conversion error. -/
def LEControllerOpcode.try_from (ocf : Nat) :
    Except HCIConversionError LEControllerOpcode :=
  if ocf = 0x0001 then Except.ok LEControllerOpcode.SetEventMask
  else if ocf = 0x0002 then Except.ok LEControllerOpcode.ReadBufferSize
  else if ocf = 0x0003 then Except.ok LEControllerOpcode.ReadLocalSupportedFeatures
  else if ocf = 0x0005 then Except.ok LEControllerOpcode.SetRandomAddress
  else if ocf = 0x0006 then Except.ok LEControllerOpcode.SetAdvertisingParameters
  else if ocf = 0x0007 then Except.ok LEControllerOpcode.ReadAdvertisingChannelTxPower
  else if ocf = 0x0008 then Except.ok LEControllerOpcode.SetAdvertisingData
  else if ocf = 0x0009 then Except.ok LEControllerOpcode.SetScanResponseData
  else if ocf = 0x000A then Except.ok LEControllerOpcode.SetAdvertisingEnable
  else if ocf = 0x000B then Except.ok LEControllerOpcode.SetScanParameters
  else if ocf = 0x000C then Except.ok LEControllerOpcode.SetScanEnable
  else if ocf = 0x000D then Except.ok LEControllerOpcode.CreateConnection
  else if ocf = 0x000E then Except.ok LEControllerOpcode.CreateConnectionCancel
  else if ocf = 0x000F then Except.ok LEControllerOpcode.ReadWhitelistSize
  else if ocf = 0x0010 then Except.ok LEControllerOpcode.ClearWhitelist
  else if ocf = 0x0011 then Except.ok LEControllerOpcode.AddDeviceToWhitelist
  else if ocf = 0x0012 then Except.ok LEControllerOpcode.RemoveDeviceFromWhitelist
  else if ocf = 0x0013 then Except.ok LEControllerOpcode.ConnectionUpdate
  else if ocf = 0x0014 then Except.ok LEControllerOpcode.SetHostChannelClassification
  else if ocf = 0x0015 then Except.ok LEControllerOpcode.ReadChannelMap
  else if ocf = 0x0016 then Except.ok LEControllerOpcode.ReadRemoteUsedFeatures
  else if ocf = 0x0017 then Except.ok LEControllerOpcode.Encrypt
  else if ocf = 0x0018 then Except.ok LEControllerOpcode.Rand
  else if ocf = 0x0019 then Except.ok LEControllerOpcode.StartEncryption
  else if ocf = 0x001A then Except.ok LEControllerOpcode.LongTermKeyRequestReply
  else if ocf = 0x001B then Except.ok LEControllerOpcode.LongTermKeyRequestNegativeReply
  else if ocf = 0x001C then Except.ok LEControllerOpcode.ReadSupportedState
  else if ocf = 0x001D then Except.ok LEControllerOpcode.ReceiverTest
  else if ocf = 0x001E then Except.ok LEControllerOpcode.TransmitterTest
  else if ocf = 0x001F then Except.ok LEControllerOpcode.TestEnd
  else Except.error HCIConversionError.mk

/-- The constant catalog in enum declaration order. -/
def LEControllerOpcode.catalog : List LEControllerOpcode :=
  [LEControllerOpcode.SetEventMask,
   LEControllerOpcode.ReadBufferSize,
   LEControllerOpcode.ReadLocalSupportedFeatures,
   LEControllerOpcode.SetRandomAddress,
   LEControllerOpcode.SetAdvertisingParameters,
   LEControllerOpcode.ReadAdvertisingChannelTxPower,
   LEControllerOpcode.SetAdvertisingData,
   LEControllerOpcode.SetScanResponseData,
   LEControllerOpcode.SetAdvertisingEnable,
   LEControllerOpcode.SetScanParameters,
   LEControllerOpcode.SetScanEnable,
   LEControllerOpcode.CreateConnection,
   LEControllerOpcode.CreateConnectionCancel,
   LEControllerOpcode.ReadWhitelistSize,
   LEControllerOpcode.ClearWhitelist,
   LEControllerOpcode.AddDeviceToWhitelist,
   LEControllerOpcode.RemoveDeviceFromWhitelist,
   LEControllerOpcode.ConnectionUpdate,
   LEControllerOpcode.SetHostChannelClassification,
   LEControllerOpcode.ReadChannelMap,
   LEControllerOpcode.ReadRemoteUsedFeatures,
   LEControllerOpcode.Encrypt,
   LEControllerOpcode.Rand,
   LEControllerOpcode.StartEncryption,
   LEControllerOpcode.LongTermKeyRequestReply,
   LEControllerOpcode.LongTermKeyRequestNegativeReply,
   LEControllerOpcode.ReadSupportedState,
   LEControllerOpcode.ReceiverTest,
   LEControllerOpcode.TransmitterTest,
   LEControllerOpcode.TestEnd]

/-- The standardized raw sub-code values: the catalog's OCF values. -/
def standardizedOcfs : List Nat :=
  LEControllerOpcode.catalog.map LEControllerOpcode.toOcf

/-- The standardized raw sub-code values as a finite set. -/
def standardizedOcfSet : Finset Nat :=
  {0x01, 0x02, 0x03, 0x05, 0x06, 0x07, 0x08, 0x09, 0x0A, 0x0B, 0x0C, 0x0D,
   0x0E, 0x0F, 0x10, 0x11, 0x12, 0x13, 0x14, 0x15, 0x16, 0x17, 0x18, 0x19,
   0x1A, 0x1B, 0x1C, 0x1D, 0x1E, 0x1F}

/-- Concrete derivation bundle used only to instantiate witness theorems. -/
def dTest : Derivations :=
  { k2 := fun k => (k % 128, k + 1, k + 2)
    networkID := fun k => k + 3
    identityKey := fun k => k + 4
    beaconKey := fun k => k + 5
    aid := fun k => k % 64 }

theorem btGet_btInsert_self {V : Type} (k : Nat) (v : V) (m : List (Nat × V)) :
    btGet k (btInsert k v m).1 = some v := by
  induction m with
  | nil => simp [btInsert, btGet]
  | cons hd tl ih =>
    obtain ⟨k1, v1⟩ := hd
    by_cases h1 : k < k1
    · simp [btInsert, h1, btGet]
    · by_cases h2 : k = k1
      · simp [btInsert, h1, h2, btGet]
      · simp [btInsert, h1, h2, btGet, ih]

theorem btGet_none_of_forall_lt {V : Type} (k : Nat) (m : List (Nat × V))
    (h : ∀ p ∈ m, k < p.1) : btGet k m = none := by
  induction m with
  | nil => rfl
  | cons hd tl ih =>
    obtain ⟨k1, v1⟩ := hd
    have hk : k ≠ k1 := Nat.ne_of_lt (h (k1, v1) (List.mem_cons_self _ _))
    simp [btGet, hk, ih fun p hp => h p (List.mem_cons_of_mem _ hp)]

theorem btInsert_snd {V : Type} (k : Nat) (v : V) (m : List (Nat × V))
    (hs : keysSorted m) : (btInsert k v m).2 = btGet k m := by
  induction m with
  | nil => simp [btInsert, btGet]
  | cons hd tl ih =>
    obtain ⟨k1, v1⟩ := hd
    rw [keysSorted, List.pairwise_cons] at hs
    by_cases h1 : k < k1
    · have htl : btGet k tl = none :=
        btGet_none_of_forall_lt k tl fun p hp => Nat.lt_trans h1 (hs.1 p hp)
      simp [btInsert, h1, btGet, Nat.ne_of_lt h1, htl]
    · by_cases h2 : k = k1
      · simp [btInsert, h1, h2, btGet]
      · simp [btInsert, h1, h2, btGet, ih hs.2]

theorem btRemove_absent {V : Type} (k : Nat) (m : List (Nat × V))
    (h : btGet k m = none) : btRemove k m = (m, none) := by
  induction m with
  | nil => rfl
  | cons hd tl ih =>
    obtain ⟨k1, v1⟩ := hd
    simp only [btGet] at h
    by_cases h2 : k = k1
    · simp [h2] at h
    · rw [if_neg h2] at h
      by_cases h1 : k < k1
      · simp [btRemove, h2, h1]
      · simp [btRemove, h2, h1, ih h]

theorem mem_btInsert {V : Type} (k : Nat) (v : V) (m : List (Nat × V))
    (p : Nat × V) (hp : p ∈ (btInsert k v m).1) : p = (k, v) ∨ p ∈ m := by
  induction m with
  | nil =>
    left
    simpa [btInsert] using hp
  | cons hd tl ih =>
    obtain ⟨k1, v1⟩ := hd
    by_cases h1 : k < k1
    · simp only [btInsert, if_pos h1] at hp
      simpa using hp
    · by_cases h2 : k = k1
      · simp only [btInsert, if_neg h1, if_pos h2] at hp
        rcases List.mem_cons.mp hp with h | h
        · left; exact h
        · right; exact List.mem_cons_of_mem _ h
      · simp only [btInsert, if_neg h1, if_neg h2] at hp
        rcases List.mem_cons.mp hp with h | h
        · right; exact h ▸ List.mem_cons_self _ _
        · rcases ih h with h3 | h3
          · left; exact h3
          · right; exact List.mem_cons_of_mem _ h3

theorem mem_btRemove {V : Type} (k : Nat) (m : List (Nat × V))
    (p : Nat × V) (hp : p ∈ (btRemove k m).1) : p ∈ m := by
  induction m with
  | nil => simpa [btRemove] using hp
  | cons hd tl ih =>
    obtain ⟨k1, v1⟩ := hd
    by_cases h2 : k = k1
    · simp only [btRemove, if_pos h2] at hp
      exact List.mem_cons_of_mem _ hp
    · by_cases h1 : k < k1
      · simp only [btRemove, if_neg h2, if_pos h1] at hp
        exact hp
      · simp only [btRemove, if_neg h2, if_neg h1] at hp
        rcases List.mem_cons.mp hp with h | h
        · exact h ▸ List.mem_cons_self _ _
        · exact List.mem_cons_of_mem _ (ih h)

/-- C1: on a `NetKeyMap` holding one slot (index 0) in Phase1 whose primary rx
candidate (the old materials) has nid 1 and whose secondary candidate (the new
materials) has nid 2, querying `matching_nid` with nid 1 yields nothing, even
though the slot's primary rx candidate derives exactly the queried nid: the
match in `NIDFilterMap::next` has no arm for a dual-candidate slot whose
primary alone matches, so the slot is skipped, contradicting the claim (and the
function's own documentation, which promises all matching materials). -/
theorem matching_nid_drops_primary_only_match :
    NetKeyMap.matching_nid
        [(0, KeyPhase.Phase1
            ⟨⟨0, ⟨2, 0, 0⟩, 0, 0, 0⟩, ⟨0, ⟨1, 0, 0⟩, 0, 0, 0⟩⟩)] 1 = [] ∧
    (KeyPhase.Phase1
        (⟨⟨0, ⟨2, 0, 0⟩, 0, 0, 0⟩, ⟨0, ⟨1, 0, 0⟩, 0, 0, 0⟩⟩ :
          KeyPair NetworkSecurityMaterials)).rx_keys.1.network_keys.nid = 1 := by
  exact ⟨rfl, rfl⟩

/-- C2: two distinct Normal slots whose stored materials both derive the
queried nid are both yielded by `matching_nid`, in ascending index order; a
single Phase1 (resp. Phase2) slot whose old and new candidates both derive the
queried nid is yielded twice, adjacently, primary candidate first (old first in
Phase1, new first in Phase2). -/
theorem matching_nid_collision_enumeration
    (v : NID) (i j : NetKeyIndex) (m1 m2 oldM newM : NetworkSecurityMaterials)
    (hij : i < j) (h1 : m1.network_keys.nid = v) (h2 : m2.network_keys.nid = v)
    (ho : oldM.network_keys.nid = v) (hn : newM.network_keys.nid = v) :
    NetKeyMap.matching_nid [(i, KeyPhase.Normal m1), (j, KeyPhase.Normal m2)] v =
      [(i, m1), (j, m2)] ∧
    NetKeyMap.matching_nid [(i, KeyPhase.Phase1 ⟨newM, oldM⟩)] v =
      [(i, oldM), (i, newM)] ∧
    NetKeyMap.matching_nid [(i, KeyPhase.Phase2 ⟨newM, oldM⟩)] v =
      [(i, newM), (i, oldM)] := by
  refine ⟨?_, ?_, ?_⟩ <;>
    simp [NetKeyMap.matching_nid, nidFilterMap, KeyPhase.rx_keys, h1, h2, ho, hn]

theorem matching_nid_collision_enumeration_witness :
    (0 : Nat) < 1 ∧
    (NetKeyMap.matching_nid
        [(0, KeyPhase.Normal ⟨10, ⟨5, 0, 0⟩, 0, 0, 0⟩),
         (1, KeyPhase.Normal ⟨11, ⟨5, 0, 0⟩, 0, 0, 0⟩)] 5 =
        [(0, ⟨10, ⟨5, 0, 0⟩, 0, 0, 0⟩), (1, ⟨11, ⟨5, 0, 0⟩, 0, 0, 0⟩)] ∧
      NetKeyMap.matching_nid
        [(0, KeyPhase.Phase1 ⟨⟨13, ⟨5, 0, 0⟩, 0, 0, 0⟩, ⟨12, ⟨5, 0, 0⟩, 0, 0, 0⟩⟩)] 5 =
        [(0, ⟨12, ⟨5, 0, 0⟩, 0, 0, 0⟩), (0, ⟨13, ⟨5, 0, 0⟩, 0, 0, 0⟩)] ∧
      NetKeyMap.matching_nid
        [(0, KeyPhase.Phase2 ⟨⟨13, ⟨5, 0, 0⟩, 0, 0, 0⟩, ⟨12, ⟨5, 0, 0⟩, 0, 0, 0⟩⟩)] 5 =
        [(0, ⟨13, ⟨5, 0, 0⟩, 0, 0, 0⟩), (0, ⟨12, ⟨5, 0, 0⟩, 0, 0, 0⟩)]) :=
  ⟨by decide,
   matching_nid_collision_enumeration 5 0 1
     ⟨10, ⟨5, 0, 0⟩, 0, 0, 0⟩ ⟨11, ⟨5, 0, 0⟩, 0, 0, 0⟩
     ⟨12, ⟨5, 0, 0⟩, 0, 0, 0⟩ ⟨13, ⟨5, 0, 0⟩, 0, 0, 0⟩
     (by decide) rfl rfl rfl rfl⟩

/-- C3: over any key pair, `Phase1{old,new}` has `rx_keys = (old, some new)`
and `tx_key = old`; `Phase2` over the same pair has `rx_keys = (new, some old)`
and `tx_key = new`; `Normal k` has `tx_key = k` and `rx_keys = (k, none)`. -/
theorem keyPhase_rx_tx_spec (K : Type) (o n k : K) :
    (KeyPhase.Phase1 ⟨n, o⟩ : KeyPhase K).rx_keys = (o, some n) ∧
    (KeyPhase.Phase1 ⟨n, o⟩ : KeyPhase K).tx_key = o ∧
    (KeyPhase.Phase2 ⟨n, o⟩ : KeyPhase K).rx_keys = (n, some o) ∧
    (KeyPhase.Phase2 ⟨n, o⟩ : KeyPhase K).tx_key = n ∧
    (KeyPhase.Normal k : KeyPhase K).tx_key = k ∧
    (KeyPhase.Normal k : KeyPhase K).rx_keys = (k, none) :=
  ⟨rfl, rfl, rfl, rfl, rfl, rfl⟩

/-- C9: in every phase, `tx_key` equals the primary (first) component of
`rx_keys`: the transmit key is always the primary decrypt candidate. -/
theorem tx_key_is_primary_rx (K : Type) (ph : KeyPhase K) :
    ph.tx_key = ph.rx_keys.1 := by
  cases ph <;> rfl

/-- C6: `NetKeyMap::insert` stores the full derived materials bundle for the
given key, wrapped in the Normal phase, at the given index; it returns the
previously stored value when the index was occupied and none when it was
free. -/
theorem netKeyMap_insert_spec (d : Derivations) (m : NetKeyMap)
    (index : NetKeyIndex) (key : NetKey) (hs : keysSorted m) :
    NetKeyMap.get_keys (NetKeyMap.insert d m index key).1 index =
      some (KeyPhase.Normal (NetworkSecurityMaterials.fromNetKey d key)) ∧
    (NetKeyMap.insert d m index key).2 = NetKeyMap.get_keys m index :=
  ⟨btGet_btInsert_self index _ m, btInsert_snd index _ m hs⟩

theorem netKeyMap_insert_spec_witness :
    keysSorted [((2 : Nat), KeyPhase.Normal (NetworkSecurityMaterials.fromNetKey dTest 9))] ∧
    (NetKeyMap.get_keys
        (NetKeyMap.insert dTest
          [(2, KeyPhase.Normal (NetworkSecurityMaterials.fromNetKey dTest 9))] 2 7).1 2 =
      some (KeyPhase.Normal (NetworkSecurityMaterials.fromNetKey dTest 7)) ∧
    (NetKeyMap.insert dTest
        [(2, KeyPhase.Normal (NetworkSecurityMaterials.fromNetKey dTest 9))] 2 7).2 =
      NetKeyMap.get_keys
        [(2, KeyPhase.Normal (NetworkSecurityMaterials.fromNetKey dTest 9))] 2) :=
  ⟨by decide, netKeyMap_insert_spec dTest _ 2 7 (by decide)⟩

/-- C8: removing an index that is not present returns none and leaves the
repository unchanged, for both `NetKeyMap::remove_keys` and
`AppKeyMap::remove_key`; remove never fails. -/
theorem remove_absent_spec (mn : NetKeyMap) (ma : AppKeyMap)
    (i : NetKeyIndex) (j : AppKeyIndex)
    (hn : NetKeyMap.get_keys mn i = none) (ha : AppKeyMap.get_key ma j = none) :
    NetKeyMap.remove_keys mn i = (mn, none) ∧
    AppKeyMap.remove_key ma j = (ma, none) :=
  ⟨btRemove_absent i mn hn, btRemove_absent j ma ha⟩

theorem remove_absent_spec_witness :
    (NetKeyMap.get_keys
        [((1 : Nat), KeyPhase.Normal (NetworkSecurityMaterials.fromNetKey dTest 9))] 0 = none ∧
      AppKeyMap.get_key [] 5 = none) ∧
    (NetKeyMap.remove_keys
        [(1, KeyPhase.Normal (NetworkSecurityMaterials.fromNetKey dTest 9))] 0 =
        ([(1, KeyPhase.Normal (NetworkSecurityMaterials.fromNetKey dTest 9))], none) ∧
      AppKeyMap.remove_key [] 5 = ([], none)) :=
  ⟨⟨by decide, by decide⟩, remove_absent_spec _ _ 0 5 (by decide) (by decide)⟩

theorem matching_aid_mem (m : AppKeyMap) (v : AID)
    (p : AppKeyIndex × ApplicationSecurityMaterials) :
    p ∈ AppKeyMap.matching_aid m v ↔ p ∈ m ∧ p.2.aid = v := by
  constructor
  · intro hp
    rcases List.mem_filterMap.mp hp with ⟨a, ha, hfa⟩
    by_cases h : a.2.aid = v
    · rw [if_pos h] at hfa
      simp only [Option.some.injEq] at hfa
      subst hfa
      exact ⟨ha, h⟩
    · rw [if_neg h] at hfa
      simp at hfa
  · intro hp
    exact List.mem_filterMap.mpr ⟨p, hp.1, by rw [if_pos hp.2]⟩

theorem matching_aid_sublist (m : AppKeyMap) (v : AID) :
    (AppKeyMap.matching_aid m v).Sublist m := by
  unfold AppKeyMap.matching_aid
  induction m with
  | nil => simp
  | cons hd tl ih =>
    by_cases h : hd.2.aid = v
    · simp only [List.filterMap_cons, if_pos h]
      exact List.Sublist.cons₂ hd ih
    · simp only [List.filterMap_cons, if_neg h]
      exact List.Sublist.cons hd ih

/-- C7: `matching_aid` yields exactly the stored slots whose stored aid
equals the query, each at most once (no duplicates), in ascending
application-key-index order; membership is characterised exactly, so two
distinct slots sharing the queried aid are both yielded. -/
theorem matching_aid_spec (m : AppKeyMap) (v : AID) (hs : keysSorted m) :
    keysSorted (AppKeyMap.matching_aid m v) ∧
    (AppKeyMap.matching_aid m v).Nodup ∧
    ∀ p, p ∈ AppKeyMap.matching_aid m v ↔ p ∈ m ∧ p.2.aid = v := by
  have hsub := matching_aid_sublist m v
  unfold keysSorted at hs
  have hsorted : List.Pairwise (fun a b => a.1 < b.1) (AppKeyMap.matching_aid m v) :=
    hs.sublist hsub
  refine ⟨hsorted, ?_, matching_aid_mem m v⟩
  have hne : List.Pairwise (fun a b => a ≠ b) (AppKeyMap.matching_aid m v) :=
    hsorted.imp fun h heq => absurd (heq ▸ h) (lt_irrefl _)
  exact hne

theorem matching_aid_spec_witness :
    keysSorted
        [((0 : Nat), (⟨1, 1, 0⟩ : ApplicationSecurityMaterials)),
         (1, ⟨65, 1, 0⟩)] ∧
    (keysSorted
        (AppKeyMap.matching_aid [(0, ⟨1, 1, 0⟩), (1, ⟨65, 1, 0⟩)] 1) ∧
      (AppKeyMap.matching_aid [(0, ⟨1, 1, 0⟩), (1, ⟨65, 1, 0⟩)] 1).Nodup ∧
      ∀ p, p ∈ AppKeyMap.matching_aid [(0, ⟨1, 1, 0⟩), (1, ⟨65, 1, 0⟩)] 1 ↔
        p ∈ [((0 : Nat), (⟨1, 1, 0⟩ : ApplicationSecurityMaterials)), (1, ⟨65, 1, 0⟩)] ∧
          p.2.aid = 1) :=
  ⟨by decide, matching_aid_spec [(0, ⟨1, 1, 0⟩), (1, ⟨65, 1, 0⟩)] 1 (by decide)⟩

theorem appKeyMap_foldl_mem (d : Derivations) (ops : List AppOp)
    (m : AppKeyMap) (p : AppKeyIndex × ApplicationSecurityMaterials)
    (hp : p ∈ ops.foldl (AppKeyMap.applyOp d) m) :
    p ∈ m ∨ ∃ n k, AppOp.ins n p.1 k ∈ ops ∧
      p.2 = ApplicationSecurityMaterials.new d k n := by
  induction ops generalizing m with
  | nil => left; simpa using hp
  | cons op rest ih =>
    rw [List.foldl_cons] at hp
    rcases ih (AppKeyMap.applyOp d m op) hp with h | ⟨n, k, hmem, hval⟩
    · cases op with
      | ins n i k =>
        rcases mem_btInsert i (ApplicationSecurityMaterials.new d k n) m p h with h1 | h1
        · right
          subst h1
          exact ⟨n, k, List.mem_cons_self _ _, rfl⟩
        · left; exact h1
      | rem i => left; exact mem_btRemove i m p h
    · right; exact ⟨n, k, List.mem_cons_of_mem _ hmem, hval⟩

/-- C10: after any sequence of `AppKeyMap` insert and remove operations
starting from the empty map, every stored entry has its aid derived from its
stored key and carries the network-key index supplied by the insert that
created it. -/
theorem appKeyMap_invariant (d : Derivations) (ops : List AppOp)
    (p : AppKeyIndex × ApplicationSecurityMaterials)
    (hp : p ∈ AppKeyMap.runOps d ops) :
    p.2.aid = d.aid p.2.app_key ∧
    ∃ n k, AppOp.ins n p.1 k ∈ ops ∧
      p.2.net_key_index = n ∧ p.2.app_key = k := by
  rcases appKeyMap_foldl_mem d ops [] p hp with h | ⟨n, k, hmem, hval⟩
  · simp at h
  · refine ⟨?_, n, k, hmem, ?_, ?_⟩ <;> rw [hval] <;> rfl

theorem appKeyMap_invariant_witness :
    ((3, ApplicationSecurityMaterials.new dTest 42 7) ∈
        AppKeyMap.runOps dTest [AppOp.ins 7 3 42]) ∧
    ((ApplicationSecurityMaterials.new dTest 42 7).aid =
        dTest.aid (ApplicationSecurityMaterials.new dTest 42 7).app_key ∧
      ∃ n k, AppOp.ins n 3 k ∈ [AppOp.ins 7 3 42] ∧
        (ApplicationSecurityMaterials.new dTest 42 7).net_key_index = n ∧
        (ApplicationSecurityMaterials.new dTest 42 7).app_key = k) :=
  ⟨by decide,
   appKeyMap_invariant dTest [AppOp.ins 7 3 42]
     (3, ApplicationSecurityMaterials.new dTest 42 7) (by decide)⟩

theorem try_from_error_of_ge (n : Nat) (h : 32 ≤ n) :
    LEControllerOpcode.try_from n = Except.error HCIConversionError.mk := by
  unfold LEControllerOpcode.try_from
  repeat rw [if_neg (by omega)]

/-- C5: converting every enumerated controller opcode to its raw sub-code and
back reproduces the original opcode, and converting any sub-code value not
among the standardized set returns the recoverable conversion error. -/
theorem opcode_round_trip :
    (∀ opcode : LEControllerOpcode,
      LEControllerOpcode.try_from opcode.toOcf = Except.ok opcode) ∧
    ∀ n : Nat, n ∉ standardizedOcfs →
      LEControllerOpcode.try_from n = Except.error HCIConversionError.mk := by
  constructor
  · intro opcode; cases opcode <;> rfl
  · intro n hn
    by_cases h : n < 32
    · interval_cases n <;> first
        | rfl
        | exact absurd (by decide) hn
    · exact try_from_error_of_ge n (by omega)

theorem opcode_round_trip_witness :
    ((4 : Nat) ∉ standardizedOcfs) ∧
    (LEControllerOpcode.try_from (LEControllerOpcode.toOcf LEControllerOpcode.Rand) =
        Except.ok LEControllerOpcode.Rand ∧
      LEControllerOpcode.try_from 4 = Except.error HCIConversionError.mk) :=
  ⟨by decide,
   opcode_round_trip.1 LEControllerOpcode.Rand,
   opcode_round_trip.2 4 (by decide)⟩

theorem try_from_isOk_iff_lt32 (n : Nat) (h : n < 32) :
    (LEControllerOpcode.try_from n).isOk = true ↔ n ∈ standardizedOcfSet := by
  interval_cases n <;> decide

/-- C4 (counterexample): there is no 31-element set of raw sub-code values
converting successfully: the set of sub-codes accepted by
`LEControllerOpcode::try_from` has exactly 30 elements. -/
theorem opcode_catalog_not_31 :
    ¬ ∃ S : Finset Nat, S.card = 31 ∧
        ∀ n : Nat, (LEControllerOpcode.try_from n).isOk = true ↔ n ∈ S := by
  rintro ⟨S, hcard, hiff⟩
  have hS : S = standardizedOcfSet := by
    ext n
    by_cases h : n < 32
    · exact (hiff n).symm.trans (try_from_isOk_iff_lt32 n h)
    · have h32 : (32 : Nat) ≤ n := by omega
      have hnone := try_from_error_of_ge n h32
      constructor
      · intro hn
        have hok := (hiff n).mpr hn
        rw [hnone] at hok
        simp [Except.isOk, Except.toBool] at hok
      · intro hn
        exact absurd
          ((show ∀ m ∈ standardizedOcfSet, m < 32 by decide) n hn) (by omega)
  rw [hS] at hcard
  have h30 : standardizedOcfSet.card = 30 := by decide
  omega

/-- C4 (amended): the controller-opcode catalog contains exactly 30
standardized opcodes: the 30 distinct raw sub-code values in
`standardizedOcfSet` convert successfully, and every other sub-code value is
rejected. -/
theorem opcode_catalog_card_30 :
    standardizedOcfSet.card = 30 ∧
    ∀ n : Nat,
      (LEControllerOpcode.try_from n).isOk = true ↔ n ∈ standardizedOcfSet := by
  refine ⟨by decide, fun n => ?_⟩
  by_cases h : n < 32
  · exact try_from_isOk_iff_lt32 n h
  · have h32 : (32 : Nat) ≤ n := by omega
    rw [try_from_error_of_ge n h32]
    constructor
    · intro hok
      simp [Except.isOk, Except.toBool] at hok
    · intro hn
      exact absurd
        ((show ∀ m ∈ standardizedOcfSet, m < 32 by decide) n hn) (by omega)
